import Mathlib

/-!
Verification development for the document-verification system.

The definitions below are a shallow embedding of the repository's
document-integrity pipeline: the upload-verification route, the hash
backfill helper, the integrity comparison and tamper classifier, the PDF
metadata embed/extract pair, the finalize route, and the canonical content
encoder shared by the PDF and Word-template pipelines.

File bytes are lists of naturals, hash digests are strings, and the
external collaborators (Keccak-256, the file system, the PDF parser and
the blockchain service) are function fields of an environment record, so
every definition stays executable on concrete inputs.
-/

namespace DocVerify

/-! ## String scanning utilities

The JS source uses `String.prototype.startsWith`, `includes`, and the
regexes `/(0x[a-fA-F0-9]{64})/` and
`/verification_hash:(0x[a-fA-F0-9]{64})/` (first match, no global flag).
These are modelled by explicit scanners over `List Char`. -/

/-- Character class of the regex `[a-fA-F0-9]`. -/
def isHexCh (c : Char) : Bool :=
  (('0' ≤ c) && (c ≤ '9')) || (('a' ≤ c) && (c ≤ 'f')) || (('A' ≤ c) && (c ≤ 'F'))

/-- Boolean list-prefix test. -/
def listIsPre : List Char → List Char → Bool
  | [], _ => true
  | _ :: _, [] => false
  | a :: as, b :: bs => (a == b) && listIsPre as bs

/-- Boolean substring test: does `n` occur contiguously inside the second list? -/
def hasSubList (n : List Char) : List Char → Bool
  | [] => listIsPre n []
  | c :: cs => listIsPre n (c :: cs) || hasSubList n cs

/-- `s.startsWith p` of JS. -/
def strStarts (p s : String) : Bool := listIsPre p.data s.data

/-- `s.includes n` of JS. -/
def strIncludes (n s : String) : Bool := hasSubList n.data s.data

/-- Consume exactly `n` hex characters, returning them and the remainder. -/
def takeHex : Nat → List Char → Option (List Char × List Char)
  | 0, cs => some ([], cs)
  | _ + 1, [] => none
  | n + 1, c :: cs =>
      if isHexCh c then (takeHex n cs).map (fun p => (c :: p.1, p.2)) else none

/-- Try to match `0x` followed by exactly 64 hex characters at the head of
the list (the anchored form of the regex `/(0x[a-fA-F0-9]{64})/`). -/
def matchHash (cs : List Char) : Option (String × List Char) :=
  match cs with
  | c :: d :: rest =>
      if c = '0' then
        if d = 'x' then
          match takeHex 64 rest with
          | some (ds, r) => some (String.mk ('0' :: 'x' :: ds), r)
          | none => none
        else none
      else none
  | _ => none

/-- First match of `/(0x[a-fA-F0-9]{64})/` in the list, if any. -/
def findHash : List Char → Option String
  | [] => none
  | c :: cs =>
      match matchHash (c :: cs) with
      | some (s, _) => some s
      | none => findHash cs

/-- Match a literal prefix, returning the remainder on success. -/
def litPre : List Char → List Char → Option (List Char)
  | [], cs => some cs
  | _ :: _, [] => none
  | l :: ls, c :: cs => if c = l then litPre ls cs else none

/-- Anchored match of `verification_hash:(0x[a-fA-F0-9]{64})`, returning
the capture group. -/
def matchVH (cs : List Char) : Option String :=
  match litPre "verification_hash:".data cs with
  | some rest => (matchHash rest).map (fun p => p.1)
  | none => none

/-- First match of `/verification_hash:(0x[a-fA-F0-9]{64})/`. -/
def findVH : List Char → Option String
  | [] => none
  | c :: cs =>
      match matchVH (c :: cs) with
      | some s => some s
      | none => findVH cs

/-! Basic lemmas about the scanners. -/

theorem mem_of_listIsPre {n l : List Char} (h : listIsPre n l = true) :
    ∀ c ∈ n, c ∈ l := by
  induction n generalizing l with
  | nil => intro c hc; cases hc
  | cons a as ih =>
      cases l with
      | nil => simp [listIsPre] at h
      | cons b bs =>
          simp only [listIsPre, Bool.and_eq_true, beq_iff_eq] at h
          intro c hc
          rcases List.mem_cons.mp hc with hc | hc
          · subst hc; exact h.1 ▸ List.mem_cons_self b bs
          · exact List.mem_cons_of_mem b (ih h.2 c hc)

theorem mem_of_hasSubList {n h : List Char} (hs : hasSubList n h = true) :
    ∀ c ∈ n, c ∈ h := by
  induction h with
  | nil =>
      intro c hc
      cases n with
      | nil => cases hc
      | cons a as => simp [hasSubList, listIsPre] at hs
  | cons b bs ih =>
      simp only [hasSubList, Bool.or_eq_true] at hs
      intro c hc
      rcases hs with hs | hs
      · exact mem_of_listIsPre hs c hc
      · exact List.mem_cons_of_mem b (ih hs c hc)

theorem hasSubList_of_pre {n b : List Char} (hp : listIsPre n b = true) :
    ∀ a : List Char, hasSubList n (a ++ b) = true := by
  intro a
  induction a with
  | nil =>
      cases b with
      | nil => simpa [hasSubList] using hp
      | cons c cs => simp [hasSubList, hp]
  | cons x xs ih => simp [hasSubList, ih]

theorem hasSubList_append_right {n b : List Char} (hb : hasSubList n b = true) :
    ∀ a : List Char, hasSubList n (a ++ b) = true := by
  intro a
  induction a with
  | nil => simpa using hb
  | cons x xs ih => simp [hasSubList, ih]

theorem takeHex_exact {ds : List Char} (hhex : ∀ c ∈ ds, isHexCh c = true) :
    ∀ rest : List Char, takeHex ds.length (ds ++ rest) = some (ds, rest) := by
  induction ds with
  | nil => intro rest; simp [takeHex]
  | cons c cs ih =>
      intro rest
      have hc : isHexCh c = true := hhex c (List.mem_cons_self c cs)
      have ihcs : ∀ x ∈ cs, isHexCh x = true :=
        fun x hx => hhex x (List.mem_cons_of_mem c hx)
      simp [takeHex, hc, ih ihcs rest]

theorem matchHash_exact {ds : List Char} (hlen : ds.length = 64)
    (hhex : ∀ c ∈ ds, isHexCh c = true) (rest : List Char) :
    matchHash ('0' :: 'x' :: (ds ++ rest)) = some (String.mk ('0' :: 'x' :: ds), rest) := by
  have := takeHex_exact hhex rest
  rw [hlen] at this
  simp [matchHash, this]

theorem matchHash_ne_zero {c : Char} (hne : c ≠ '0') (cs : List Char) :
    matchHash (c :: cs) = none := by
  cases cs with
  | nil => simp [matchHash]
  | cons d rest => simp [matchHash, hne]

theorem findHash_append_skip {a : List Char} (ha : ∀ c ∈ a, c ≠ '0') :
    ∀ b : List Char, findHash (a ++ b) = findHash b := by
  induction a with
  | nil => intro b; simp
  | cons c cs ih =>
      intro b
      have hc : c ≠ '0' := ha c (List.mem_cons_self c cs)
      have hcs : ∀ x ∈ cs, x ≠ '0' := fun x hx => ha x (List.mem_cons_of_mem c hx)
      simp [findHash, matchHash_ne_zero hc, ih hcs b]

theorem litPre_self (l : List Char) : ∀ cs : List Char, litPre l (l ++ cs) = some cs := by
  induction l with
  | nil => intro cs; simp [litPre]
  | cons x xs ih => intro cs; simp [litPre, ih]

theorem matchVH_at_head {ds : List Char} (hlen : ds.length = 64)
    (hhex : ∀ c ∈ ds, isHexCh c = true) (rest : List Char) :
    matchVH ("verification_hash:".data ++ ('0' :: 'x' :: (ds ++ rest)))
      = some (String.mk ('0' :: 'x' :: ds)) := by
  have h1 := litPre_self "verification_hash:".data ('0' :: 'x' :: (ds ++ rest))
  have h2 := matchHash_exact hlen hhex rest
  simp only [matchVH, h1, h2, Option.map_some']

/-! ## Data model

`DocRecord` mirrors a row of the `documents` table (part_001,
`createTables`): `document_hash` is `VARCHAR(66) UNIQUE NOT NULL`, the
metadata and path columns are nullable, `verified` is `BOOLEAN DEFAULT
false`.  `PdfMeta` is the metadata surface of a parsed PDF that the
pipeline reads and writes (subject, keywords, page count).  The
environment `Env` packages the external collaborators: Keccak-256, the
file system, the PDF parser and the blockchain service. -/

/-- Metadata surface of a parsed PDF document. -/
structure PdfMeta where
  subject : Option String
  keywords : Option String
  pageCount : Nat
deriving DecidableEq, Repr

/-- Result of `extractHashFromPDF`. -/
structure ExtractResult where
  hash : Option String
  isWatermarked : Bool
deriving DecidableEq, Repr

/-- A row of the `documents` table. -/
structure DocRecord where
  document_hash : String
  student_name : Option String
  student_id : Option String
  program : Option String
  document_type : Option String
  date_issued : Option String
  original_file_name : Option String
  original_file_path : Option String
  processed_file_path : Option String
  watermarked_file_path : Option String
  blockchain_tx_hash : Option String
  block_number : Option Nat
  verified : Bool
  content_hash : Option String
  processed_content_hash : Option String
  watermarked_content_hash : Option String
  created_at : Nat
deriving DecidableEq, Repr

/-- An uploaded multipart file, already read into memory. -/
structure UploadedFile where
  bytes : List Nat
  originalname : String
  mimetype : String
deriving DecidableEq, Repr

/-- External collaborators of the pipeline.  `ledgerLookup` returning
`none` models `blockchain.verifyDocument` throwing (the route catches the
error and keeps `blockchainVerified = false`). -/
structure Env where
  keccak : List Nat → String
  fsRead : String → Option (List Nat)
  parsePdf : List Nat → Option PdfMeta
  ledgerInit : Bool
  ledgerLookup : String → Option Bool
  registerResult : String → Option (String × Nat)
  watermarkCreate : Option String → String → Option String

/-- JS truthiness of a nullable string column: `null`/`undefined` and the
empty string are falsy. -/
def optTruthy : Option String → Bool
  | none => false
  | some s => s ≠ ""

/-- `fs.readFile` on a nullable path: `readFile(undefined)` and
`readFile('')` both throw, which callers catch. -/
def readPath (env : Env) : Option String → Option (List Nat)
  | none => none
  | some p => if p = "" then none else env.fsRead p

/-! ## Format extractor (`extractHashFromPDF`, part_000 lines 582-632)

The JS function reads the PDF, then inspects `getSubject()` and
`getKeywords()`.  Any error while reading or parsing is caught and turned
into `{hash: null, isWatermarked: false}`.  `extractFromMeta` is the
post-parse logic; `extractHashFromPDF` composes it with the parser. -/

/-- Subject/keyword inspection of `extractHashFromPDF`, applied to the
outcome of `PDFDocument.load` (`none` = the load threw). -/
def extractFromMeta : Option PdfMeta → ExtractResult
  | none => { hash := none, isWatermarked := false }
  | some m =>
      let subjHash : Option String :=
        match m.subject with
        | some s => if strStarts "0x" s then some s else none
        | none => none
      let afterSubject : Option String × Bool :=
        match m.subject with
        | some s =>
            if strIncludes "Verified:" s then
              (match findHash s.data with
               | some t => some t
               | none => subjHash, true)
            else (subjHash, false)
        | none => (subjHash, false)
      match m.keywords with
      | some k =>
          { hash :=
              match findVH k.data with
              | some t => some t
              | none => afterSubject.1,
            isWatermarked :=
              if strIncludes "blockchain_verified:true" k then true
              else afterSubject.2 }
      | none => { hash := afterSubject.1, isWatermarked := afterSubject.2 }

/-- `extractHashFromPDF`: parse the uploaded bytes and inspect metadata. -/
def extractHashFromPDF (env : Env) (bytes : List Nat) : ExtractResult :=
  extractFromMeta (env.parsePdf bytes)

/-! ## Format embedder metadata effects

`embedQRInPDF` (documents.js lines 834-902) sets the PDF subject to the
document hash and the keywords to a single `verification_hash:` token.
`addWatermarkToPDF` (documents.js, metadata update around lines 702-714)
sets the subject to a human-readable `Blockchain Verified:` marker and a
five-token keyword list carrying `blockchain_verified:true`.  pdf-lib
joins the keyword array with single spaces.  The visual drawing is
byte-level rendering outside the metadata surface and is not modelled;
`extract` relies solely on these metadata fields. -/

/-- Metadata effect of `embedQRInPDF` on the processed file. -/
def embedQRInPDFMeta (m : PdfMeta) (document_hash : String) : PdfMeta :=
  { m with
    subject := some document_hash,
    keywords := some ("verification_hash:" ++ document_hash) }

/-- Metadata effect of `addWatermarkToPDF` on the watermarked file. -/
def addWatermarkToPDFMeta (m : PdfMeta) (txHash : String) (block_number : Nat) : PdfMeta :=
  { m with
    subject := some ("Blockchain Verified: " ++ txHash),
    keywords := some ("verification_hash:" ++ txHash
      ++ " block_number:" ++ toString block_number
      ++ " blockchain_verified:true watermarked:true original_copy:stamped") }

/-! ## Document store queries (part_000, upload route lines 129-170)

`document_hash` is the table's unique key; `rows[0]` of each query is the
first matching row in list order. -/

/-- `SELECT * FROM documents WHERE document_hash = $1`. -/
def dbFindByDocumentHash (db : List DocRecord) (h : String) : Option DocRecord :=
  db.find? (fun r => r.document_hash == h)

/-- `SELECT * FROM documents WHERE content_hash = $1 OR
processed_content_hash = $2 OR watermarked_content_hash = $3` (all three
parameters are the uploaded content hash; a NULL column never matches). -/
def dbFindByContentHashes (db : List DocRecord) (h : String) : Option DocRecord :=
  db.find? (fun r =>
    (r.content_hash == some h) || (r.processed_content_hash == some h)
      || (r.watermarked_content_hash == some h))

/-! Fuzzy filename fallback: `path.basename(name, path.extname(name))`,
then `replace(/[_-]?0x[a-fA-F0-9]+/, '')` (first match only), then
`replace(/^Verified_/, '')`, then `LIKE %base%` on the three filename
columns with `ORDER BY created_at DESC LIMIT 1`. -/

/-- Split a character list at its last `.`; the second component starts
with that dot (the shape of Node's `path.extname`). -/
def splitLastDot : List Char → Option (List Char × List Char)
  | [] => none
  | c :: cs =>
      match splitLastDot cs with
      | some (b, e) => some (c :: b, e)
      | none => if c = '.' then some ([], c :: cs) else none

/-- `path.basename(name, path.extname(name))`: drop the extension; a dot
at position 0 yields an empty extension, so nothing is dropped. -/
def baseNameNoExt (s : String) : String :=
  match splitLastDot s.data with
  | some (b, _) => if b = [] then s else String.mk b
  | none => s

/-- Greedily consume a run of hex characters. -/
def takeHexGreedy : List Char → List Char × List Char
  | [] => ([], [])
  | c :: cs =>
      if isHexCh c then
        let p := takeHexGreedy cs
        (c :: p.1, p.2)
      else ([], c :: cs)

/-- Anchored match of `0x[a-fA-F0-9]+`, returning the remainder. -/
def matchHexRun : List Char → Option (List Char)
  | '0' :: 'x' :: rest =>
      let p := takeHexGreedy rest
      if p.1 = [] then none else some p.2
  | _ => none

/-- Anchored match of `[_-]?0x[a-fA-F0-9]+`, returning the remainder. -/
def matchHexFrag : List Char → Option (List Char)
  | [] => none
  | c :: cs =>
      if c = '_' || c = '-' then
        match matchHexRun cs with
        | some r => some r
        | none => matchHexRun (c :: cs)
      else matchHexRun (c :: cs)

/-- `replace(/[_-]?0x[a-fA-F0-9]+/, '')`: delete the first occurrence. -/
def stripHexFrag : List Char → List Char
  | [] => []
  | c :: cs =>
      match matchHexFrag (c :: cs) with
      | some r => r
      | none => c :: stripHexFrag cs

/-- `replace(/^Verified_/, '')`. -/
def stripVerified (cs : List Char) : List Char :=
  match litPre "Verified_".data cs with
  | some r => r
  | none => cs

/-- The base name handed to the fuzzy `LIKE` queries. -/
def fuzzyBase (originalname : String) : String :=
  String.mk (stripVerified (stripHexFrag (baseNameNoExt originalname).data))

/-- `col LIKE '%base%'` on a nullable column. -/
def likeMatch (base : String) (col : Option String) : Bool :=
  match col with
  | some s => hasSubList base.data s.data
  | none => false

/-- The fuzzy query's WHERE clause over one row. -/
def fuzzyRowMatch (base : String) (r : DocRecord) : Bool :=
  likeMatch base r.original_file_name || likeMatch base r.processed_file_path
    || likeMatch base r.watermarked_file_path

/-- `ORDER BY created_at DESC LIMIT 1` over the matching rows (first row
of maximal `created_at`). -/
def dbFuzzy (db : List DocRecord) (base : String) : Option DocRecord :=
  (db.filter (fuzzyRowMatch base)).foldl
    (fun acc r =>
      match acc with
      | none => some r
      | some a => if r.created_at > a.created_at then some r else acc)
    none

/-! ## Document resolution (upload route steps 3-4) -/

/-- Step 3 of the upload route: the embedded hash and watermark flag are
extracted only for PDF uploads. -/
def embeddedExtract (env : Env) (file : UploadedFile) : ExtractResult :=
  if file.mimetype = "application/pdf" then extractHashFromPDF env file.bytes
  else { hash := none, isWatermarked := false }

/-- Step 4: by embedded document hash, else by the three content-hash
columns, else the fuzzy filename fallback. -/
def resolveDocument (env : Env) (db : List DocRecord) (file : UploadedFile) :
    Option DocRecord :=
  let uploadedContentHash := env.keccak file.bytes
  let embeddedHash := (embeddedExtract env file).hash
  let found1 :=
    if optTruthy embeddedHash then dbFindByDocumentHash db (embeddedHash.getD "")
    else none
  let found2 :=
    match found1 with
    | some r => some r
    | none => dbFindByContentHashes db uploadedContentHash
  match found2 with
  | some r => some r
  | none => dbFuzzy db (fuzzyBase file.originalname)

/-! ## Lazy hash backfill (`updateDocumentHashes`, part_000 lines 325-380)

Each variant is handled by an independent `if`/`try` block: the hash is
recomputed only when the stored hash is falsy and the file path is truthy
and the file reads successfully; a failed read is logged and skipped.
The SQL UPDATE then pushes exactly the recomputed fields to every row
with the same `document_hash` (the unique key). -/

/-- The processed-variant backfill condition and value. -/
def canBackfillProcessed (env : Env) (doc : DocRecord) : Option String :=
  if !optTruthy doc.processed_content_hash && optTruthy doc.processed_file_path then
    (readPath env doc.processed_file_path).map env.keccak
  else none

/-- The original-variant backfill condition and value. -/
def canBackfillOriginal (env : Env) (doc : DocRecord) : Option String :=
  if !optTruthy doc.content_hash && optTruthy doc.original_file_path then
    (readPath env doc.original_file_path).map env.keccak
  else none

/-- The watermarked-variant backfill condition and value (`fs.access`
followed by `fs.readFile`, both on the same path). -/
def canBackfillWatermarked (env : Env) (doc : DocRecord) : Option String :=
  if !optTruthy doc.watermarked_content_hash && optTruthy doc.watermarked_file_path then
    (readPath env doc.watermarked_file_path).map env.keccak
  else none

/-- The in-memory mutation of `document` done by `updateDocumentHashes`.
The three blocks read and write disjoint fields, so each condition sees
the record as it was on entry. -/
def backfillRecord (env : Env) (doc : DocRecord) : DocRecord :=
  let d1 :=
    match canBackfillProcessed env doc with
    | some h => { doc with processed_content_hash := some h }
    | none => doc
  let d2 :=
    match canBackfillOriginal env doc with
    | some h => { d1 with content_hash := some h }
    | none => d1
  match canBackfillWatermarked env doc with
  | some h => { d2 with watermarked_content_hash := some h }
  | none => d2

/-- The SQL UPDATE: only the recomputed hash columns are listed in SET. -/
def applyBackfillUpdate (env : Env) (doc : DocRecord) (r : DocRecord) : DocRecord :=
  { r with
    processed_content_hash :=
      match canBackfillProcessed env doc with
      | some h => some h
      | none => r.processed_content_hash,
    content_hash :=
      match canBackfillOriginal env doc with
      | some h => some h
      | none => r.content_hash,
    watermarked_content_hash :=
      match canBackfillWatermarked env doc with
      | some h => some h
      | none => r.watermarked_content_hash }

/-- `updateDocumentHashes(document, db)`: returns the mutated record and
the updated store.  When nothing was recomputed the UPDATE is skipped,
which coincides with mapping the identity. -/
def updateDocumentHashes (env : Env) (doc : DocRecord) (db : List DocRecord) :
    DocRecord × List DocRecord :=
  (backfillRecord env doc,
   db.map fun r =>
     if r.document_hash == doc.document_hash then applyBackfillUpdate env doc r else r)

/-! ## Integrity comparison (`verifyDocumentIntegrity`, part_000 lines 383-453)

Fields the JS code sets only on some paths are `Option`-valued with a
`none` default.  Human-readable message strings are not modelled; the
machine-readable classification (`tamperType`, `confidence`,
`documentType`) is. -/

/-- The `verificationDetails` object. -/
structure Details where
  authentic : Bool := false
  tampered : Bool := true
  confidence : Option Nat := none
  hashMatch : Bool := false
  uploadedHash : String := ""
  expectedHash : Option String := none
  documentType : Option String := none
  uploadedSize : Option Nat := none
  expectedSize : Option Nat := none
  expectedVersion : Option String := none
  sizeMatch : Option Bool := none
  sizeDifference : Option Nat := none
  sizeRatio : Option ℚ := none
  tamperType : Option String := none
  isWatermarked : Option Bool := none
  blockchainVerified : Option Bool := none
  hashAlgorithm : Option String := none
deriving DecidableEq, Repr

/-- Comparison-target selection at the head of
`detectTamperingWithWatermarkAwareness`: expected hash, expected size and
version tag.  A failed read leaves `expectedSize = 0` and the version tag
unset (the JS assigns `versionType` only after a successful read). -/
def selectExpected (env : Env) (doc : DocRecord) :
    Option String × Option Nat × Option String :=
  if optTruthy doc.watermarked_content_hash then
    (doc.watermarked_content_hash,
     match readPath env doc.watermarked_file_path with
     | some bs => (some bs.length, some "watermarked")
     | none => (some 0, none))
  else if optTruthy doc.processed_content_hash then
    (doc.processed_content_hash,
     match readPath env doc.processed_file_path with
     | some bs => (some bs.length, some "processed")
     | none => (some 0, none))
  else if optTruthy doc.content_hash then
    (doc.content_hash,
     match readPath env doc.original_file_path with
     | some bs => (some bs.length, some "original")
     | none => (some 0, none))
  else (none, none, none)

/-- `Math.abs(uploadedSize - expectedSize)`; `none` models the NaN arising
when no comparison target exists (`expectedSize` undefined). -/
def sizeDiffOf (uploadedSize : Nat) : Option Nat → Option Nat
  | some e => some ((Int.ofNat uploadedSize - Int.ofNat e).natAbs)
  | none => none

/-- `expectedSize > 0 ? sizeDifference / expectedSize : 1`, as an exact
rational (the JS double arithmetic is modelled exactly; the comparison
thresholds 0.01 and 0.05 are far from representable-rounding edges for
any realistic file size).  Built with `mkRat` so that it evaluates by
kernel reduction. -/
def sizeRatioOf (uploadedSize : Nat) : Option Nat → ℚ
  | some e =>
      if 0 < e then mkRat (Int.ofNat ((Int.ofNat uploadedSize - Int.ofNat e).natAbs)) e
      else 1
  | none => 1

/-- Expected page count: loaded only when the comparison target is the
watermarked variant and its path is truthy, and only if the file reads
and parses. -/
def expectedPageCountOf (env : Env) (doc : DocRecord) (versionType : Option String) :
    Option Nat :=
  if (versionType == some "watermarked") && optTruthy doc.watermarked_file_path then
    match readPath env doc.watermarked_file_path with
    | some bs => (env.parsePdf bs).map PdfMeta.pageCount
    | none => none
  else none

/-- `detectTamperingWithWatermarkAwareness` (part_000 lines 456-579). -/
def detectTamperingWithWatermarkAwareness (env : Env) (uploadedBuffer : List Nat)
    (uploadedHash : String) (doc : DocRecord) (mimeType : String)
    (isWatermarked : Bool) : Details :=
  let uploadedSize := uploadedBuffer.length
  let sel := selectExpected env doc
  let expectedHash := sel.1
  let expectedSize := sel.2.1
  let versionType := sel.2.2
  let sizeDifference := sizeDiffOf uploadedSize expectedSize
  let sizeRatio := sizeRatioOf uploadedSize expectedSize
  let cls : String × Nat :=
    if mimeType = "application/pdf" then
      match env.parsePdf uploadedBuffer with
      | none => ("STRUCTURE_CORRUPTION", 100)
      | some up =>
          let expPC := expectedPageCountOf env doc versionType
          if (match expPC with
              | some n => (n != 0) && (up.pageCount != n)
              | none => false) then
            ("PAGE_MODIFICATION", 100)
          else if isWatermarked && !(versionType == some "watermarked") then
            ("WATERMARK_MISMATCH", 85)
          else if !isWatermarked && (versionType == some "watermarked") then
            ("WATERMARK_REMOVAL", 95)
          else if sizeRatio < mkRat 1 100 then
            ("MINOR_MODIFICATION", 70)
          else
            ("CONTENT_MODIFICATION", 95)
    else
      if sizeDifference == some 0 then
        ("CONTENT_REPLACEMENT", 100)
      else if sizeRatio < mkRat 1 20 then
        ("MINOR_MODIFICATION", 85)
      else
        ("MAJOR_MODIFICATION", 100)
  { authentic := false, tampered := true, uploadedHash := uploadedHash,
    hashMatch := false, uploadedSize := some uploadedSize,
    isWatermarked := some isWatermarked, expectedHash := expectedHash,
    expectedSize := expectedSize, expectedVersion := versionType,
    sizeMatch := some (sizeDifference == some 0),
    sizeDifference := sizeDifference, sizeRatio := some sizeRatio,
    hashAlgorithm := some "Keccak-256 (Ethereum standard)",
    tamperType := some cls.1, confidence := some cls.2 }

/-- Condition of the first branch of `verifyDocumentIntegrity`:
`document.verified && document.watermarked_content_hash && uploadedHash
=== document.watermarked_content_hash`. -/
def wmMatchCond (doc : DocRecord) (uploadedHash : String) : Bool :=
  doc.verified && optTruthy doc.watermarked_content_hash
    && (doc.watermarked_content_hash == some uploadedHash)

/-- Condition of the second branch: `document.processed_content_hash &&
uploadedHash === document.processed_content_hash`. -/
def procMatchCond (doc : DocRecord) (uploadedHash : String) : Bool :=
  optTruthy doc.processed_content_hash
    && (doc.processed_content_hash == some uploadedHash)

/-- Condition of the third branch: `document.content_hash && uploadedHash
=== document.content_hash`. -/
def origMatchCond (doc : DocRecord) (uploadedHash : String) : Bool :=
  optTruthy doc.content_hash && (doc.content_hash == some uploadedHash)

/-- `verifyDocumentIntegrity`: priority matching of the uploaded hash
against the watermarked (gated on `verified`), processed, then original
variant; on no match, delegate to the tamper classifier. -/
def verifyDocumentIntegrity (env : Env) (uploadedBuffer : List Nat)
    (uploadedHash : String) (doc : DocRecord) (mimeType : String)
    (isWatermarked : Bool) : Details :=
  if wmMatchCond doc uploadedHash then
    { authentic := true, tampered := false, confidence := some 100,
      hashMatch := true, uploadedHash := uploadedHash,
      expectedHash := doc.watermarked_content_hash,
      documentType := some "watermarked_verified" }
  else if procMatchCond doc uploadedHash then
    { authentic := true, tampered := false, confidence := some 100,
      hashMatch := true, uploadedHash := uploadedHash,
      expectedHash := doc.processed_content_hash,
      documentType := some "processed" }
  else if origMatchCond doc uploadedHash then
    { authentic := true, tampered := false, confidence := some 100,
      hashMatch := true, uploadedHash := uploadedHash,
      expectedHash := doc.content_hash,
      documentType := some "original" }
  else
    detectTamperingWithWatermarkAwareness env uploadedBuffer uploadedHash doc
      mimeType isWatermarked

/-! ## The upload-verification route (part_000 lines 101-322) -/

/-- The route's terminal `verificationStatus` values. -/
inductive VStatus
  | notFound
  | notVerified
  | authentic
  | tampered
deriving DecidableEq, Repr

/-- Observable side effects of one upload-verification call, in order:
the blockchain lookup, the lazy hash backfill, the byte/hash comparison. -/
inductive RouteEv
  | ledgerCheck (h : String)
  | backfillHashes
  | integrityCompare
deriving DecidableEq, Repr

/-- Response and post-state of the upload route. -/
structure UploadResult where
  status : VStatus
  integrity : Option Details
  db : List DocRecord
  events : List RouteEv
deriving DecidableEq, Repr

/-- `blockchainVerified` as computed by the route: false when the service
is uninitialized, when the lookup throws, and when the ledger reports
absence. -/
def ledgerConfirmed (env : Env) (h : String) : Bool :=
  env.ledgerInit && (env.ledgerLookup h == some true)

/-- The `integrity` object of the `NOT_VERIFIED` response. -/
def notVerifiedDetails : Details :=
  { authentic := false, tampered := false, confidence := some 100,
    blockchainVerified := some false }

/-- `POST /api/verify/upload`.  Resolution failure is `NOT_FOUND`; a
resolved document without ledger confirmation is `NOT_VERIFIED` and the
store is left untouched; only a ledger-confirmed document proceeds to the
backfill and the integrity comparison. -/
def uploadVerify (env : Env) (db : List DocRecord) (file : UploadedFile) :
    UploadResult :=
  let uploadedContentHash := env.keccak file.bytes
  let ex := embeddedExtract env file
  match resolveDocument env db file with
  | none => { status := .notFound, integrity := none, db := db, events := [] }
  | some doc =>
      let events0 :=
        if env.ledgerInit then [RouteEv.ledgerCheck doc.document_hash] else []
      if ledgerConfirmed env doc.document_hash then
        let p := updateDocumentHashes env doc db
        let d0 := verifyDocumentIntegrity env file.bytes uploadedContentHash p.1
          file.mimetype ex.isWatermarked
        let d := { d0 with blockchainVerified := some true }
        { status := if d.authentic then .authentic else .tampered,
          integrity := some d, db := p.2,
          events := events0 ++ [RouteEv.backfillHashes, RouteEv.integrityCompare] }
      else
        { status := .notVerified, integrity := some notVerifiedDetails,
          db := db, events := events0 }

/-! ## The finalize route (documents.js `POST /finalize`, lines 162-372)

Two branches.  When the blockchain service is unavailable the route
"simulates for testing": it creates the watermarked file, but its UPDATE
references `simulatedResult`, a `const` that is block-scoped to the
preceding `try { ... }` (declared at line 193, block ends at line 221,
reference at line 228).  Evaluating the parameter array therefore throws
a ReferenceError before `db.query` runs; the route-level catch returns
500 and the store is never mutated.  So the simulation branch, whatever
its intent, can only end in an error and never sets `verified = true`.

When the service is available the route registers the hash on chain
first and sets `verified = true` only after `registerDocument` succeeds;
a watermark failure after successful registration still sets
`verified = true` (without a watermark path).  The UPDATE's second
parameter is `blockchainResult.block_number`, but the service returns
the camelCase key `blockNumber`, so the value read is `undefined` and
the driver stores NULL in `block_number`.  `env.registerResult = none`
covers both `success:false` and a thrown registration error (the outer
catch returns 500 before any update). -/

/-- Outcome tag of the finalize route. -/
inductive FinalizeOutcome
  | errNotFound
  | errWatermark
  | errSimulatedReference
  | errRegistration
  | okAlreadyVerified
  | okRegistered
deriving DecidableEq, Repr

/-- The SQL UPDATE run by the finalize route: transaction hash, block
number (NULL — see the section comment), `verified = true`, and the
watermark path when one was created. -/
def dbSetFinalized (db : List DocRecord) (h tx : String) (bn : Option Nat)
    (wp : Option String) : List DocRecord :=
  db.map fun r =>
    if r.document_hash == h then
      { r with
        blockchain_tx_hash := some tx,
        block_number := bn,
        verified := true,
        watermarked_file_path :=
          match wp with
          | some p => some p
          | none => r.watermarked_file_path }
    else r

/-- `POST /api/documents/finalize`. -/
def finalize (env : Env) (db : List DocRecord) (document_hash : String) :
    List DocRecord × FinalizeOutcome :=
  if !env.ledgerInit then
    match dbFindByDocumentHash db document_hash with
    | none => (db, .errNotFound)
    | some doc =>
        match env.watermarkCreate doc.processed_file_path document_hash with
        | none => (db, .errWatermark)
        | some _ =>
            -- the UPDATE throws a ReferenceError on the out-of-scope
            -- `simulatedResult` before reaching the store
            (db, .errSimulatedReference)
  else
    match dbFindByDocumentHash db document_hash with
    | none => (db, .errNotFound)
    | some doc =>
        if doc.verified && optTruthy doc.blockchain_tx_hash
            && optTruthy doc.watermarked_file_path
            && (readPath env doc.watermarked_file_path).isSome then
          (db, .okAlreadyVerified)
        else
          match env.registerResult document_hash with
          | none => (db, .errRegistration)
          | some (tx, _) =>
              -- `blockchainResult.block_number` is an absent key
              -- (the service returns `blockNumber`), so NULL is stored
              match env.watermarkCreate doc.processed_file_path document_hash with
              | some wp =>
                  (dbSetFinalized db document_hash tx none (some wp), .okRegistered)
              | none =>
                  (dbSetFinalized db document_hash tx none none, .okRegistered)

/-! ## Canonical content encoder

`PDFService.generateDocumentContent` (PDFService.js lines 16-54) and
`TemplateService.createStandardizedContent` (part_002 lines 50-63).  The
Word-template pipeline builds a `documentData` object and delegates to
the very same `PDFService` encoder.  `new Date(x).toISOString()` is the
abstract parameter `parseIso`; a value already of class `Date` carries
its ISO rendering directly. -/

/-- One course/grade line item. -/
structure Course where
  courseCode : String
  courseName : String
  units : Option String
  grade : Option String
deriving DecidableEq, Repr

/-- A JS date-ish value: either a `Date` instance (carrying its
`toISOString()` rendering) or a raw value to be parsed. -/
inductive JsDateVal
  | jsDate (iso : String)
  | other (raw : String)
deriving DecidableEq, Repr

/-- The structured issuance fields consumed by the encoder. -/
structure DocumentData where
  studentId : String
  studentName : String
  documentType : String
  courseData : List Course
  grades : List (String × String)
  dateIssued : JsDateVal
  institutionName : String
deriving DecidableEq, Repr

/-- `dateIssued instanceof Date ? dateIssued.toISOString() : new
Date(dateIssued).toISOString()`. -/
def isoOfDate (parseIso : String → String) : JsDateVal → String
  | .jsDate s => s
  | .other r => parseIso r

/-- One line of the `COURSES:` block. -/
def courseLine (idx : Nat) (c : Course) : String :=
  toString (idx + 1) ++ ". " ++ c.courseCode ++ " - " ++ c.courseName
    ++ (if optTruthy c.units then " (" ++ c.units.getD "" ++ " units)" else "")
    ++ (if optTruthy c.grade then " - Grade: " ++ c.grade.getD "" else "")
    ++ "\n"

/-- `PDFService.generateDocumentContent`. -/
def generateDocumentContent (parseIso : String → String) (d : DocumentData) : String :=
  "DOCUMENT_TYPE:" ++ d.documentType ++ "\n"
    ++ "STUDENT_ID:" ++ d.studentId ++ "\n"
    ++ "STUDENT_NAME:" ++ d.studentName ++ "\n"
    ++ "INSTITUTION:" ++ d.institutionName ++ "\n"
    ++ "DATE_ISSUED:" ++ isoOfDate parseIso d.dateIssued ++ "\n"
    ++ (if d.courseData.length > 0 then
          "COURSES:\n" ++ String.join (d.courseData.enum.map fun p => courseLine p.1 p.2)
        else "")
    ++ (if d.grades.length > 0 then
          "GRADES:\n" ++ String.join (d.grades.map fun g => g.1 ++ ": " ++ g.2 ++ "\n")
        else "")

/-- The student-side inputs of
`TemplateService.createStandardizedContent` (nullable collections get
JS-default fallbacks). -/
structure StudentDataIn where
  studentId : String
  studentName : String
  documentType : String
  courseData : Option (List Course)
  grades : Option (List (String × String))
  institutionName : Option String
deriving DecidableEq, Repr

/-- `studentData.institutionName || templateData.institution ||
'Institution'` (JS falsy chain over nullable strings). -/
def pickInstitution (sdName tdInstitution : Option String) : String :=
  if optTruthy sdName then sdName.getD ""
  else if optTruthy tdInstitution then tdInstitution.getD ""
  else "Institution"

/-- The `documentData` object built by `createStandardizedContent`
(`dateIssued: new Date()` is the current instant `nowIso`). -/
def buildDocumentData (tdInstitution : Option String) (sd : StudentDataIn)
    (nowIso : String) : DocumentData :=
  { studentId := sd.studentId,
    studentName := sd.studentName,
    documentType := sd.documentType,
    courseData := sd.courseData.getD [],
    grades := sd.grades.getD [],
    dateIssued := .jsDate nowIso,
    institutionName := pickInstitution sd.institutionName tdInstitution }

/-- `TemplateService.createStandardizedContent`: builds the data object
and delegates to the `PDFService` encoder. -/
def createStandardizedContent (parseIso : String → String)
    (tdInstitution : Option String) (sd : StudentDataIn) (nowIso : String) : String :=
  generateDocumentContent parseIso (buildDocumentData tdInstitution sd nowIso)

/-! ## Concrete fixtures used by witnesses and counterexamples -/

/-- A minimal environment; individual witnesses override fields. -/
def envBase : Env :=
  { keccak := fun _ => "0xk",
    fsRead := fun _ => none,
    parsePdf := fun _ => none,
    ledgerInit := false,
    ledgerLookup := fun _ => none,
    registerResult := fun _ => none,
    watermarkCreate := fun _ _ => none }

/-- A minimal documents row; individual witnesses override fields. -/
def recBase : DocRecord :=
  { document_hash := "0xd",
    student_name := none, student_id := none, program := none,
    document_type := none, date_issued := none, original_file_name := none,
    original_file_path := none, processed_file_path := none,
    watermarked_file_path := none, blockchain_tx_hash := none,
    block_number := none, verified := false, content_hash := none,
    processed_content_hash := none, watermarked_content_hash := none,
    created_at := 0 }

/-! ## Claim C1: trust precedence of the ledger on upload -/

/-- C1: for every uploaded file that resolves to a document whose
`documentHash` the ledger does not confirm, the upload route answers
`NOT_VERIFIED` — a status distinct from `NOT_FOUND`, `AUTHENTIC` and
`TAMPERED` — with `authentic = false` and `tampered = false`, even when
the uploaded bytes are an exact byte match to a stored variant (the
statement quantifies over all uploads, byte-matching ones included).  No
backfill and no byte comparison happens on this path, while the ledger
lookup (when the service is initialized) is the only emitted effect, so
the ledger is re-queried before any byte comparison would be attempted. -/
theorem uploadUnverifiedTrustPrecedence (env : Env) (db : List DocRecord)
    (file : UploadedFile) (doc : DocRecord)
    (hres : resolveDocument env db file = some doc)
    (hled : ledgerConfirmed env doc.document_hash = false) :
    (uploadVerify env db file).status = VStatus.notVerified
    ∧ VStatus.notVerified ≠ VStatus.notFound
    ∧ VStatus.notVerified ≠ VStatus.authentic
    ∧ VStatus.notVerified ≠ VStatus.tampered
    ∧ ((uploadVerify env db file).integrity.map Details.authentic = some false
        ∧ (uploadVerify env db file).integrity.map Details.tampered = some false)
    ∧ RouteEv.integrityCompare ∉ (uploadVerify env db file).events
    ∧ RouteEv.backfillHashes ∉ (uploadVerify env db file).events
    ∧ (env.ledgerInit = true →
        (uploadVerify env db file).events = [RouteEv.ledgerCheck doc.document_hash])
    ∧ (uploadVerify env db file).db = db := by
  have hmain : uploadVerify env db file =
      { status := .notVerified, integrity := some notVerifiedDetails, db := db,
        events := if env.ledgerInit then [RouteEv.ledgerCheck doc.document_hash] else [] } := by
    simp only [uploadVerify, hres, hled, Bool.false_eq_true, if_false]
  rw [hmain]
  refine ⟨rfl, by simp, by simp, by simp, ⟨rfl, rfl⟩, ?_, ?_, ?_, rfl⟩
  · cases h : env.ledgerInit <;> simp
  · cases h : env.ledgerInit <;> simp
  · intro h; simp [h]

/-- Fixture for the C1 witness: the store holds the resolved document but
the ledger reports absence. -/
def env1 : Env :=
  { envBase with
    keccak := fun _ => "0xh1",
    ledgerInit := true,
    ledgerLookup := fun _ => some false }

/-- Fixture row for the C1 witness: the uploaded hash is an exact match
of the stored processed variant. -/
def rec1 : DocRecord :=
  { recBase with document_hash := "0xd1", processed_content_hash := some "0xh1" }

theorem uploadUnverifiedTrustPrecedenceWitness :
    (uploadVerify env1 [rec1]
      { bytes := [1], originalname := "a.bin", mimetype := "application/octet-stream" }).status
        = VStatus.notVerified
    ∧ RouteEv.integrityCompare ∉ (uploadVerify env1 [rec1]
      { bytes := [1], originalname := "a.bin", mimetype := "application/octet-stream" }).events := by
  have h := uploadUnverifiedTrustPrecedence env1 [rec1]
    { bytes := [1], originalname := "a.bin", mimetype := "application/octet-stream" }
    rec1 (by decide) (by decide)
  exact ⟨h.1, h.2.2.2.2.2.1⟩

/-! ## Claim C2: exact-match priority order -/

/-- C2: for a ledger-confirmed document record, the exact-match
comparison proceeds watermarked-first (taken only when `verified` is
true), then processed, then original; the first match yields an
authentic result whose `documentType` names the variant, with confidence
exactly 100. -/
theorem integrityMatchPriority (env : Env) (bytes : List Nat) (uh : String)
    (doc : DocRecord) (mime : String) (isW : Bool) (hne : uh ≠ "") :
    (doc.verified = true → doc.watermarked_content_hash = some uh →
      (verifyDocumentIntegrity env bytes uh doc mime isW).authentic = true
      ∧ (verifyDocumentIntegrity env bytes uh doc mime isW).documentType
          = some "watermarked_verified"
      ∧ (verifyDocumentIntegrity env bytes uh doc mime isW).confidence = some 100
      ∧ (verifyDocumentIntegrity env bytes uh doc mime isW).tampered = false)
    ∧ (¬(doc.verified = true ∧ doc.watermarked_content_hash = some uh) →
      doc.processed_content_hash = some uh →
      (verifyDocumentIntegrity env bytes uh doc mime isW).authentic = true
      ∧ (verifyDocumentIntegrity env bytes uh doc mime isW).documentType = some "processed"
      ∧ (verifyDocumentIntegrity env bytes uh doc mime isW).confidence = some 100
      ∧ (verifyDocumentIntegrity env bytes uh doc mime isW).tampered = false)
    ∧ (¬(doc.verified = true ∧ doc.watermarked_content_hash = some uh) →
      doc.processed_content_hash ≠ some uh →
      doc.content_hash = some uh →
      (verifyDocumentIntegrity env bytes uh doc mime isW).authentic = true
      ∧ (verifyDocumentIntegrity env bytes uh doc mime isW).documentType = some "original"
      ∧ (verifyDocumentIntegrity env bytes uh doc mime isW).confidence = some 100
      ∧ (verifyDocumentIntegrity env bytes uh doc mime isW).tampered = false) := by
  refine ⟨?_, ?_, ?_⟩
  · intro hv hw
    have hcond : wmMatchCond doc uh = true := by
      simp [wmMatchCond, hv, hw, optTruthy, hne]
    simp [verifyDocumentIntegrity, hcond]
  · intro hn hp
    have hcond : wmMatchCond doc uh = false := by
      by_cases hv : doc.verified = true
      · have hw : doc.watermarked_content_hash ≠ some uh := fun hw => hn ⟨hv, hw⟩
        simp [wmMatchCond, hv, hw]
      · simp only [Bool.not_eq_true] at hv
        simp [wmMatchCond, hv]
    have hpcond : procMatchCond doc uh = true := by
      simp [procMatchCond, hp, optTruthy, hne]
    simp [verifyDocumentIntegrity, hcond, hpcond, hp]
  · intro hn hp hc
    have hcond : wmMatchCond doc uh = false := by
      by_cases hv : doc.verified = true
      · have hw : doc.watermarked_content_hash ≠ some uh := fun hw => hn ⟨hv, hw⟩
        simp [wmMatchCond, hv, hw]
      · simp only [Bool.not_eq_true] at hv
        simp [wmMatchCond, hv]
    have hpcond : procMatchCond doc uh = false := by
      cases hx : doc.processed_content_hash with
      | none => simp [procMatchCond, hx, optTruthy]
      | some v =>
          have hv : v ≠ uh := fun hv => hp (by rw [hx, hv])
          simp [procMatchCond, hx, hv]
    have hocond : origMatchCond doc uh = true := by
      simp [origMatchCond, hc, optTruthy, hne]
    simp [verifyDocumentIntegrity, hcond, hpcond, hocond, hc]

/-- Fixture row for the C2 witness: all three variant hashes present,
`verified = true`. -/
def rec2 : DocRecord :=
  { recBase with
    document_hash := "0xd2", verified := true,
    watermarked_content_hash := some "0xw2",
    processed_content_hash := some "0xp2",
    content_hash := some "0xc2" }

theorem integrityMatchPriorityWitness :
    ((verifyDocumentIntegrity envBase [] "0xw2" rec2 "application/pdf" false).documentType
        = some "watermarked_verified"
      ∧ (verifyDocumentIntegrity envBase [] "0xw2" rec2 "application/pdf" false).confidence
        = some 100)
    ∧ ((verifyDocumentIntegrity envBase [] "0xp2" rec2 "application/pdf" false).documentType
        = some "processed")
    ∧ ((verifyDocumentIntegrity envBase [] "0xc2" rec2 "application/pdf" false).documentType
        = some "original") := by
  have h1 := (integrityMatchPriority envBase [] "0xw2" rec2 "application/pdf" false
    (by decide)).1 rfl rfl
  have h2 := (integrityMatchPriority envBase [] "0xp2" rec2 "application/pdf" false
    (by decide)).2.1 (by decide) rfl
  have h3 := (integrityMatchPriority envBase [] "0xc2" rec2 "application/pdf" false
    (by decide)).2.2 (by decide) (by decide) rfl
  exact ⟨⟨h1.2.1, h1.2.2.1⟩, h2.2.1, h3.2.1⟩

/-! ## Claim C7: lazy hash backfill -/

theorem backfillRecord_processed (env : Env) (doc : DocRecord) :
    (backfillRecord env doc).processed_content_hash
      = (match canBackfillProcessed env doc with
         | some h => some h
         | none => doc.processed_content_hash) := by
  unfold backfillRecord
  cases canBackfillProcessed env doc
    <;> cases canBackfillOriginal env doc
    <;> cases canBackfillWatermarked env doc
    <;> simp

theorem backfillRecord_original (env : Env) (doc : DocRecord) :
    (backfillRecord env doc).content_hash
      = (match canBackfillOriginal env doc with
         | some h => some h
         | none => doc.content_hash) := by
  unfold backfillRecord
  cases canBackfillProcessed env doc
    <;> cases canBackfillOriginal env doc
    <;> cases canBackfillWatermarked env doc
    <;> simp

theorem backfillRecord_watermarked (env : Env) (doc : DocRecord) :
    (backfillRecord env doc).watermarked_content_hash
      = (match canBackfillWatermarked env doc with
         | some h => some h
         | none => doc.watermarked_content_hash) := by
  unfold backfillRecord
  cases canBackfillProcessed env doc
    <;> cases canBackfillOriginal env doc
    <;> cases canBackfillWatermarked env doc
    <;> simp

/-- C7: the backfill computes and stores the byte-hash for each variant
whose hash is absent but whose file path is present and readable; a
variant whose file is unreadable (or whose path is absent) keeps an
absent hash while the other variants are still processed — each
variant's conjunct below holds with no assumption on the other two — and
variants whose hash is already present are left unchanged.  The function
is total: partial backfill is success, not failure. -/
theorem backfillMissingHashesSpec (env : Env) (doc : DocRecord) :
    ((∀ p bs, doc.processed_content_hash = none → doc.processed_file_path = some p →
        p ≠ "" → env.fsRead p = some bs →
        (backfillRecord env doc).processed_content_hash = some (env.keccak bs))
      ∧ (doc.processed_content_hash = none →
          readPath env doc.processed_file_path = none →
          (backfillRecord env doc).processed_content_hash = none)
      ∧ (∀ h, doc.processed_content_hash = some h → h ≠ "" →
          (backfillRecord env doc).processed_content_hash = some h))
    ∧ ((∀ p bs, doc.content_hash = none → doc.original_file_path = some p →
        p ≠ "" → env.fsRead p = some bs →
        (backfillRecord env doc).content_hash = some (env.keccak bs))
      ∧ (doc.content_hash = none →
          readPath env doc.original_file_path = none →
          (backfillRecord env doc).content_hash = none)
      ∧ (∀ h, doc.content_hash = some h → h ≠ "" →
          (backfillRecord env doc).content_hash = some h))
    ∧ ((∀ p bs, doc.watermarked_content_hash = none → doc.watermarked_file_path = some p →
        p ≠ "" → env.fsRead p = some bs →
        (backfillRecord env doc).watermarked_content_hash = some (env.keccak bs))
      ∧ (doc.watermarked_content_hash = none →
          readPath env doc.watermarked_file_path = none →
          (backfillRecord env doc).watermarked_content_hash = none)
      ∧ (∀ h, doc.watermarked_content_hash = some h → h ≠ "" →
          (backfillRecord env doc).watermarked_content_hash = some h)) := by
  refine ⟨⟨?_, ?_, ?_⟩, ⟨?_, ?_, ?_⟩, ⟨?_, ?_, ?_⟩⟩
  · intro p bs h0 hp hpne hr
    rw [backfillRecord_processed]
    simp [canBackfillProcessed, h0, hp, hpne, optTruthy, readPath, hr]
  · intro h0 hr
    rw [backfillRecord_processed]
    simp [canBackfillProcessed, h0, hr, optTruthy]
  · intro h hsome hne
    rw [backfillRecord_processed]
    simp [canBackfillProcessed, hsome, hne, optTruthy]
  · intro p bs h0 hp hpne hr
    rw [backfillRecord_original]
    simp [canBackfillOriginal, h0, hp, hpne, optTruthy, readPath, hr]
  · intro h0 hr
    rw [backfillRecord_original]
    simp [canBackfillOriginal, h0, hr, optTruthy]
  · intro h hsome hne
    rw [backfillRecord_original]
    simp [canBackfillOriginal, hsome, hne, optTruthy]
  · intro p bs h0 hp hpne hr
    rw [backfillRecord_watermarked]
    simp [canBackfillWatermarked, h0, hp, hpne, optTruthy, readPath, hr]
  · intro h0 hr
    rw [backfillRecord_watermarked]
    simp [canBackfillWatermarked, h0, hr, optTruthy]
  · intro h hsome hne
    rw [backfillRecord_watermarked]
    simp [canBackfillWatermarked, hsome, hne, optTruthy]

/-- Fixture environment for the C7 witness: the processed file reads,
the watermarked file does not. -/
def env7 : Env :=
  { envBase with
    keccak := fun bs => if bs = [1, 2] then "0xcomputed" else "0xother",
    fsRead := fun p => if p = "pp" then some [1, 2] else none }

/-- Fixture row for the C7 witness: processed hash missing and readable,
original hash already present, watermarked hash missing and unreadable. -/
def rec7 : DocRecord :=
  { recBase with
    processed_content_hash := none, processed_file_path := some "pp",
    content_hash := some "0xkeep", original_file_path := some "op",
    watermarked_content_hash := none, watermarked_file_path := some "wp" }

theorem backfillMissingHashesSpecWitness :
    (backfillRecord env7 rec7).processed_content_hash = some "0xcomputed"
    ∧ (backfillRecord env7 rec7).content_hash = some "0xkeep"
    ∧ (backfillRecord env7 rec7).watermarked_content_hash = none := by
  have h := backfillMissingHashesSpec env7 rec7
  refine ⟨?_, ?_, ?_⟩
  · have := h.1.1 "pp" [1, 2] rfl rfl (by decide) (by decide)
    simpa using this
  · exact h.2.1.2.2 "0xkeep" rfl (by decide)
  · exact h.2.2.2.1 rfl (by decide)

/-! ## Claim C9: frame condition of the upload route -/

/-- All `documents` columns other than the three lazily-backfilled
content-hash columns coincide. -/
def frameEq (r s : DocRecord) : Prop :=
  s.document_hash = r.document_hash
  ∧ s.student_name = r.student_name
  ∧ s.student_id = r.student_id
  ∧ s.program = r.program
  ∧ s.document_type = r.document_type
  ∧ s.date_issued = r.date_issued
  ∧ s.original_file_name = r.original_file_name
  ∧ s.original_file_path = r.original_file_path
  ∧ s.processed_file_path = r.processed_file_path
  ∧ s.watermarked_file_path = r.watermarked_file_path
  ∧ s.blockchain_tx_hash = r.blockchain_tx_hash
  ∧ s.block_number = r.block_number
  ∧ s.verified = r.verified
  ∧ s.created_at = r.created_at

theorem frameEq_refl (r : DocRecord) : frameEq r r := by
  refine ⟨rfl, rfl, rfl, rfl, rfl, rfl, rfl, rfl, rfl, rfl, rfl, rfl, rfl, rfl⟩

theorem frameEq_applyBackfillUpdate (env : Env) (doc r : DocRecord) :
    frameEq r (applyBackfillUpdate env doc r) := by
  unfold applyBackfillUpdate frameEq
  refine ⟨rfl, rfl, rfl, rfl, rfl, rfl, rfl, rfl, rfl, rfl, rfl, rfl, rfl, rfl⟩

/-- C9: every upload-verification call, whatever its outcome, leaves
each row of the document store unchanged except possibly the three
content-hash columns (`content_hash`, `processed_content_hash`,
`watermarked_content_hash`); in particular the row count, the identity
and metadata of every row, the file paths, the ledger fields and the
`verified` flag are untouched. -/
theorem uploadStoreFrame (env : Env) (db : List DocRecord) (file : UploadedFile) :
    List.Forall₂ frameEq db (uploadVerify env db file).db := by
  cases hres : resolveDocument env db file with
  | none =>
      simp only [uploadVerify, hres]
      exact (List.forall₂_same).mpr fun r _ => frameEq_refl r
  | some doc =>
      cases hc : ledgerConfirmed env doc.document_hash with
      | false =>
          simp only [uploadVerify, hres, hc, Bool.false_eq_true, if_false]
          exact (List.forall₂_same).mpr fun r _ => frameEq_refl r
      | true =>
          simp only [uploadVerify, hres, hc, if_true, updateDocumentHashes]
          refine (List.forall₂_map_right_iff).mpr ?_
          refine (List.forall₂_same).mpr fun r _ => ?_
          by_cases hx : (r.document_hash == doc.document_hash) = true
          · simp only [hx, if_true]
            exact frameEq_applyBackfillUpdate env doc r
          · simp only [Bool.not_eq_true] at hx
            simp only [hx, Bool.false_eq_true, if_false]
            exact frameEq_refl r

/-! ## Claim C8: canonical content encoder across the two producers -/

/-- C8: the Word-template pipeline's encoder delegates to the PDF
pipeline's encoder (so equal structured inputs give byte-identical
canonical strings across both producers — the encoder is a pure function
of its input, with the current instant and date parsing passed in
explicitly), and an empty course collection omits the `COURSES:` block
entirely: with no courses the output is exactly the five scalar lines
followed by the grades block (itself omitted when empty), with no
`COURSES:` line. -/
theorem canonicalEncoderProducers (parseIso : String → String)
    (tdInstitution : Option String) (sd : StudentDataIn) (nowIso : String)
    (d : DocumentData) :
    (createStandardizedContent parseIso tdInstitution sd nowIso
      = generateDocumentContent parseIso (buildDocumentData tdInstitution sd nowIso))
    ∧ (d.courseData = [] → generateDocumentContent parseIso d =
        "DOCUMENT_TYPE:" ++ d.documentType ++ "\n"
        ++ "STUDENT_ID:" ++ d.studentId ++ "\n"
        ++ "STUDENT_NAME:" ++ d.studentName ++ "\n"
        ++ "INSTITUTION:" ++ d.institutionName ++ "\n"
        ++ "DATE_ISSUED:" ++ isoOfDate parseIso d.dateIssued ++ "\n"
        ++ (if d.grades.length > 0 then
              "GRADES:\n" ++ String.join (d.grades.map fun g => g.1 ++ ": " ++ g.2 ++ "\n")
            else ""))
    ∧ (d.courseData = [] → d.grades = [] → generateDocumentContent parseIso d =
        "DOCUMENT_TYPE:" ++ d.documentType ++ "\n"
        ++ "STUDENT_ID:" ++ d.studentId ++ "\n"
        ++ "STUDENT_NAME:" ++ d.studentName ++ "\n"
        ++ "INSTITUTION:" ++ d.institutionName ++ "\n"
        ++ "DATE_ISSUED:" ++ isoOfDate parseIso d.dateIssued ++ "\n") := by
  refine ⟨rfl, ?_, ?_⟩
  · intro hc
    simp [generateDocumentContent, hc]
  · intro hc hg
    simp [generateDocumentContent, hc, hg]

/-- Fixture input for the C8 witness: no courses, one grade entry. -/
def doc8 : DocumentData :=
  { studentId := "2021-00001", studentName := "Ana", documentType := "TOR",
    courseData := [], grades := [("Math", "A")],
    dateIssued := .jsDate "2024-01-01T00:00:00.000Z",
    institutionName := "Inst" }

/-- Dummy student-data argument for applying the C8 theorem. -/
def sd8 : StudentDataIn :=
  { studentId := "", studentName := "", documentType := "",
    courseData := none, grades := none, institutionName := none }

theorem canonicalEncoderProducersWitness :
    generateDocumentContent id doc8
      = "DOCUMENT_TYPE:TOR\nSTUDENT_ID:2021-00001\nSTUDENT_NAME:Ana\nINSTITUTION:Inst\nDATE_ISSUED:2024-01-01T00:00:00.000Z\nGRADES:\nMath: A\n" := by
  have h := (canonicalEncoderProducers id none sd8 "" doc8).2.1 rfl
  rw [h]
  rfl

/-! ## Claim C4: embed/extract round trip on PDF metadata

The round trip is stated on the metadata surface: pdf-lib's
`save`/`load` pair preserves subject and keywords, so an environment
whose parser returns the embedded metadata (hypothesis `hparse`) gives
the file-level statement through `extractHashFromPDF`. -/

theorem listIsPre_append_of_pre {n : List Char} :
    ∀ {l : List Char}, listIsPre n l = true →
    ∀ r : List Char, listIsPre n (l ++ r) = true := by
  induction n with
  | nil => intro l _ r; simp [listIsPre]
  | cons a as ih =>
      intro l hp r
      cases l with
      | nil => simp [listIsPre] at hp
      | cons b bs =>
          simp only [listIsPre, Bool.and_eq_true] at hp
          simp [listIsPre, hp.1, ih hp.2 r]

theorem findHash_eq_of_match {l : List Char} {s : String} {r : List Char}
    (h : matchHash l = some (s, r)) : findHash l = some s := by
  cases l with
  | nil => simp [matchHash] at h
  | cons c cs => simp [findHash, h]

theorem findVH_eq_of_match {l : List Char} {s : String}
    (h : matchVH l = some s) : findVH l = some s := by
  cases l with
  | nil =>
      rw [show matchVH ([] : List Char) = none from by decide] at h
      exact absurd h (by simp)
  | cons c cs => simp [findVH, h]

/-- A hex-digit payload cannot contain the `Verified:` marker (it has no
colon). -/
theorem noVerifiedInHex {ds : List Char} (hhex : ∀ c ∈ ds, isHexCh c = true) :
    hasSubList "Verified:".data ('0' :: 'x' :: ds) = false := by
  cases hb : hasSubList "Verified:".data ('0' :: 'x' :: ds) with
  | false => rfl
  | true =>
      exfalso
      have hmem := mem_of_hasSubList hb ':' (by decide)
      rcases List.mem_cons.mp hmem with h0 | hmem
      · exact absurd h0 (by decide)
      rcases List.mem_cons.mp hmem with h0 | hmem
      · exact absurd h0 (by decide)
      · exact absurd (hhex ':' hmem) (by decide)

/-- The processed keyword string cannot contain the watermark token (no
letter `l` occurs in `verification_hash:` or in hex digits). -/
theorem noBVInKeywords {ds : List Char} (hhex : ∀ c ∈ ds, isHexCh c = true) :
    hasSubList "blockchain_verified:true".data
      ("verification_hash:".data ++ ('0' :: 'x' :: ds)) = false := by
  cases hb : hasSubList "blockchain_verified:true".data
      ("verification_hash:".data ++ ('0' :: 'x' :: ds)) with
  | false => rfl
  | true =>
      exfalso
      have hmem := mem_of_hasSubList hb 'l' (by decide)
      rcases List.mem_append.mp hmem with h0 | hmem
      · exact absurd h0 (by decide)
      rcases List.mem_cons.mp hmem with h0 | hmem
      · exact absurd h0 (by decide)
      rcases List.mem_cons.mp hmem with h0 | hmem
      · exact absurd h0 (by decide)
      · exact absurd (hhex 'l' hmem) (by decide)

/-- C4: for every PDF and every system-format hash (`0x` + 64 hex
digits), extracting from the metadata written by `embedQRInPDF` recovers
exactly that hash — the subject is the hash and the keywords carry the
single `verification_hash:` token — with `isWatermarked = false`; and
the metadata written by the watermark step always reports
`isWatermarked = true`. -/
theorem embedExtractRoundTrip (m m2 : PdfMeta) (ds : List Char)
    (hlen : ds.length = 64) (hhex : ∀ c ∈ ds, isHexCh c = true)
    (t : String) (bn : Nat) (env : Env) (bytes : List Nat)
    (hparse : env.parsePdf bytes
      = some (embedQRInPDFMeta m (String.mk ('0' :: 'x' :: ds)))) :
    extractFromMeta (some (embedQRInPDFMeta m (String.mk ('0' :: 'x' :: ds))))
      = { hash := some (String.mk ('0' :: 'x' :: ds)), isWatermarked := false }
    ∧ extractHashFromPDF env bytes
      = { hash := some (String.mk ('0' :: 'x' :: ds)), isWatermarked := false }
    ∧ (extractFromMeta (some (addWatermarkToPDFMeta m2 t bn))).isWatermarked = true := by
  have f1 : strStarts "0x" (String.mk ('0' :: 'x' :: ds)) = true := rfl
  have f2 : strIncludes "Verified:" (String.mk ('0' :: 'x' :: ds)) = false :=
    noVerifiedInHex hhex
  have f3 : findVH ("verification_hash:" ++ String.mk ('0' :: 'x' :: ds)).data
      = some (String.mk ('0' :: 'x' :: ds)) := by
    have hm := matchVH_at_head hlen hhex []
    rw [List.append_nil] at hm
    exact findVH_eq_of_match hm
  have f4 : strIncludes "blockchain_verified:true"
      ("verification_hash:" ++ String.mk ('0' :: 'x' :: ds)) = false :=
    noBVInKeywords hhex
  have hmain : extractFromMeta (some (embedQRInPDFMeta m (String.mk ('0' :: 'x' :: ds))))
      = { hash := some (String.mk ('0' :: 'x' :: ds)), isWatermarked := false } := by
    simp at f3
    simp [extractFromMeta, embedQRInPDFMeta, f1, f2, f3, f4]
  have g2 : strIncludes "Verified:" ("Blockchain Verified: " ++ t) = true := by
    have hsplit : ("Blockchain Verified: " ++ t).data
        = "Blockchain ".data ++ ("Verified: ".data ++ t.data) := rfl
    show hasSubList "Verified:".data ("Blockchain Verified: " ++ t).data = true
    rw [hsplit]
    exact hasSubList_of_pre (listIsPre_append_of_pre (by decide) t.data) "Blockchain ".data
  refine ⟨hmain, ?_, ?_⟩
  · rw [extractHashFromPDF, hparse, hmain]
  · simp [extractFromMeta, addWatermarkToPDFMeta, g2]

/-- The concrete 66-character hash used by the C4 witness. -/
def hash4 : String := String.mk ('0' :: 'x' :: List.replicate 64 'a')

/-- Fixture environment for the C4 witness: the parser returns the
metadata that `embedQRInPDF` wrote. -/
def env4 : Env :=
  { envBase with
    parsePdf := fun _ =>
      some (embedQRInPDFMeta { subject := none, keywords := none, pageCount := 1 } hash4) }

theorem embedExtractRoundTripWitness :
    extractHashFromPDF env4 [3] = { hash := some hash4, isWatermarked := false }
    ∧ (extractFromMeta (some (addWatermarkToPDFMeta
        { subject := none, keywords := none, pageCount := 1 } "0xtx" 5))).isWatermarked
      = true := by
  have h := embedExtractRoundTrip
    { subject := none, keywords := none, pageCount := 1 }
    { subject := none, keywords := none, pageCount := 1 }
    (List.replicate 64 'a') (by decide) (by decide) "0xtx" 5 env4 [3] rfl
  exact ⟨h.2.1, h.2.2⟩

/-! ## Claim C10: totality of the PDF hash extractor -/

/-- Fixture metadata for the C10 counterexample: a subject carrying the
watermark marker but no recoverable hash. -/
def meta10 : PdfMeta :=
  { subject := some "Verified: pending", keywords := none, pageCount := 1 }

/-- Fixture environment for the C10 counterexample. -/
def env10 : Env :=
  { envBase with parsePdf := fun bs => if bs = [7] then some meta10 else none }

/-- C10 counterexample: on an input whose metadata carries no
recognizable hash, the extractor returns `hash = null` but
`isWatermarked = true` (the subject contains `Verified:`), refuting the
claim that such inputs yield `isWatermarked = false`. -/
theorem extractorNullHashCounterexample :
    (extractHashFromPDF env10 [7]).hash = none
    ∧ (extractHashFromPDF env10 [7]).isWatermarked = true := by decide

/-- C10 amended: the extractor is total by construction; a failed parse
yields `{hash := none, isWatermarked := false}`; when the metadata
carries no `0x`-prefixed subject, no embedded 64-hex-digit hash and no
`verification_hash` keyword token, the hash is `none`; and
`isWatermarked` reflects exactly the watermark markers (`Verified:` in
the subject or `blockchain_verified:true` in the keywords),
independently of hash recovery — so it can be true while the hash is
`none`. -/
theorem extractorTotalAmended (env : Env) (bytes : List Nat) :
    (env.parsePdf bytes = none →
      extractHashFromPDF env bytes = { hash := none, isWatermarked := false })
    ∧ (∀ m, env.parsePdf bytes = some m →
        (∀ s, m.subject = some s → strStarts "0x" s = false ∧ findHash s.data = none) →
        (∀ k, m.keywords = some k → findVH k.data = none) →
        (extractHashFromPDF env bytes).hash = none)
    ∧ (∀ m, env.parsePdf bytes = some m →
        ((extractHashFromPDF env bytes).isWatermarked = true ↔
          (∃ s, m.subject = some s ∧ strIncludes "Verified:" s = true)
          ∨ (∃ k, m.keywords = some k ∧ strIncludes "blockchain_verified:true" k = true))) := by
  refine ⟨?_, ?_, ?_⟩
  · intro h
    rw [extractHashFromPDF, h]
    rfl
  · intro m hm hs hk
    rw [extractHashFromPDF, hm]
    cases hsub : m.subject with
    | none =>
        cases hkw : m.keywords with
        | none => simp [extractFromMeta, hsub, hkw]
        | some k => simp [extractFromMeta, hsub, hkw, hk k hkw]
    | some s =>
        obtain ⟨h1, h2⟩ := hs s hsub
        cases hkw : m.keywords with
        | none =>
            by_cases hv : strIncludes "Verified:" s = true
            · simp [extractFromMeta, hsub, hkw, hv, h1, h2]
            · rw [Bool.not_eq_true] at hv
              simp [extractFromMeta, hsub, hkw, hv, h1]
        | some k =>
            by_cases hv : strIncludes "Verified:" s = true
            · simp [extractFromMeta, hsub, hkw, hv, h1, h2, hk k hkw]
            · rw [Bool.not_eq_true] at hv
              simp [extractFromMeta, hsub, hkw, hv, h1, hk k hkw]
  · intro m hm
    rw [extractHashFromPDF, hm]
    cases hsub : m.subject with
    | none =>
        cases hkw : m.keywords with
        | none => simp [extractFromMeta, hsub, hkw]
        | some k =>
            by_cases hb : strIncludes "blockchain_verified:true" k = true
            · simp [extractFromMeta, hsub, hkw, hb]
            · rw [Bool.not_eq_true] at hb
              simp [extractFromMeta, hsub, hkw, hb]
    | some s =>
        by_cases hv : strIncludes "Verified:" s = true
        · cases hkw : m.keywords with
          | none => simp [extractFromMeta, hsub, hkw, hv]
          | some k =>
              by_cases hb : strIncludes "blockchain_verified:true" k = true
              · simp [extractFromMeta, hsub, hkw, hv, hb]
              · rw [Bool.not_eq_true] at hb
                simp [extractFromMeta, hsub, hkw, hv, hb]
        · rw [Bool.not_eq_true] at hv
          cases hkw : m.keywords with
          | none => simp [extractFromMeta, hsub, hkw, hv]
          | some k =>
              by_cases hb : strIncludes "blockchain_verified:true" k = true
              · simp [extractFromMeta, hsub, hkw, hv, hb]
              · rw [Bool.not_eq_true] at hb
                simp [extractFromMeta, hsub, hkw, hv, hb]

theorem extractorTotalAmendedWitness :
    extractHashFromPDF envBase [9] = { hash := none, isWatermarked := false } :=
  (extractorTotalAmended envBase [9]).1 rfl

/-! ## Claim C6: which hash fields the two lookups check -/

/-- Fixture environment for the C6 counterexample: the uploaded bytes
hash to `0xh6`. -/
def env6 : Env := { envBase with keccak := fun _ => "0xh6" }

/-- Fixture row for the C6 counterexample: `document_hash` equals the
uploaded content hash, all three content-hash columns are NULL, and the
stored filename shares nothing with the upload. -/
def rec6 : DocRecord :=
  { recBase with document_hash := "0xh6", original_file_name := some "zzz" }

/-- Fixture upload for the C6 counterexample (non-PDF, so no embedded
hash). -/
def file6 : UploadedFile :=
  { bytes := [1], originalname := "abc.txt", mimetype := "text/plain" }

/-- C6 counterexample: the uploaded-content-hash lookup does not check
`document_hash`.  A record whose `document_hash` equals the uploaded
content hash is not found — the route answers `NOT_FOUND` — refuting the
claim that both lookups check all four hash fields. -/
theorem resolutionFourFieldCounterexample :
    (uploadVerify env6 [rec6] file6).status = VStatus.notFound
    ∧ rec6.document_hash = env6.keccak file6.bytes := by decide

/-- C6 amended: the embedded-hash lookup checks only `documentHash`; the
uploaded-content-hash lookup checks `contentHash`,
`processedContentHash` and `watermarkedContentHash` but not
`documentHash`; and the fuzzy filename fallback runs only after both
hash lookups have failed. -/
theorem resolutionLookupOrderAmended (env : Env) (db : List DocRecord)
    (file : UploadedFile) (h : String) (r : DocRecord) :
    (∀ r', dbFindByDocumentHash db h = some r' → r'.document_hash = h)
    ∧ (∀ r', dbFindByContentHashes db h = some r' →
        (r'.content_hash = some h ∨ r'.processed_content_hash = some h
          ∨ r'.watermarked_content_hash = some h))
    ∧ (optTruthy (embeddedExtract env file).hash = true →
        dbFindByDocumentHash db ((embeddedExtract env file).hash.getD "") = some r →
        resolveDocument env db file = some r)
    ∧ ((optTruthy (embeddedExtract env file).hash = true →
          dbFindByDocumentHash db ((embeddedExtract env file).hash.getD "") = none) →
        dbFindByContentHashes db (env.keccak file.bytes) = some r →
        resolveDocument env db file = some r)
    ∧ ((optTruthy (embeddedExtract env file).hash = true →
          dbFindByDocumentHash db ((embeddedExtract env file).hash.getD "") = none) →
        dbFindByContentHashes db (env.keccak file.bytes) = none →
        resolveDocument env db file = dbFuzzy db (fuzzyBase file.originalname)) := by
  refine ⟨?_, ?_, ?_, ?_, ?_⟩
  · intro r' hr
    have hp := List.find?_some hr
    exact beq_iff_eq.mp hp
  · intro r' hr
    have hp := List.find?_some hr
    rcases Bool.or_eq_true _ _ |>.mp hp with hp | hp
    · rcases Bool.or_eq_true _ _ |>.mp hp with hp | hp
      · exact Or.inl (beq_iff_eq.mp hp)
      · exact Or.inr (Or.inl (beq_iff_eq.mp hp))
    · exact Or.inr (Or.inr (beq_iff_eq.mp hp))
  · intro he hf
    simp [resolveDocument, he, hf]
  · intro himp hc
    cases he : optTruthy (embeddedExtract env file).hash with
    | false => simp [resolveDocument, he, hc]
    | true => simp [resolveDocument, he, himp he, hc]
  · intro himp hc
    cases he : optTruthy (embeddedExtract env file).hash with
    | false => simp [resolveDocument, he, hc]
    | true => simp [resolveDocument, he, himp he, hc]

/-- Fixture row for the C6 amended witness: found through its
`content_hash` column. -/
def rec6b : DocRecord :=
  { recBase with document_hash := "0xother6", content_hash := some "0xh6" }

theorem resolutionLookupOrderAmendedWitness :
    resolveDocument env6 [rec6b] file6 = some rec6b := by
  have h := (resolutionLookupOrderAmended env6 [rec6b] file6 "0xh6" rec6b).2.2.2.1
  exact h (fun htr => absurd htr (by decide)) (by decide)

/-! ## Claim C5: when `verified` is set to true -/

/-- Fixture environment for the C5 witness: blockchain service
unavailable and watermark creation succeeding — the simulation branch
still ends in a ReferenceError before its UPDATE. -/
def env5 : Env :=
  { envBase with
    ledgerLookup := fun _ => some false,
    watermarkCreate := fun _ _ => some "wp5" }

/-- Fixture row for the C5 witness: unverified document with a processed
file. -/
def rec5 : DocRecord :=
  { recBase with document_hash := "0xd5", processed_file_path := some "pf5" }

/-- Fixture environment for the C5 witness's second conjunct: ledger
available, registration failing. -/
def env5b : Env := { envBase with ledgerInit := true }

/-- C5: no operation sets `verified` to true without a successful ledger
registration of the row's `documentHash`.  The simulation branch
(blockchain unavailable) never mutates the store — its UPDATE always
throws on the block-scoped `simulatedResult` — and with the service
available a failed registration leaves the store unchanged, so a row's
`verified` flag can flip to true only when `registerDocument` succeeded
for that row's hash.  The upload-verification route never changes
`verified` at all.  (This is the checkable direction of the spec's iff:
the cached flag is set only upon ledger confirmation, and verification
flows re-query the ledger rather than trusting it.) -/
theorem verifiedFlagLedgerOnly (env : Env) (db : List DocRecord) (h : String) :
    (env.ledgerInit = false → (finalize env db h).1 = db)
    ∧ (env.registerResult h = none → (finalize env db h).1 = db)
    ∧ List.Forall₂ (fun r r' => r'.verified = true →
        r.verified = true
        ∨ (r.document_hash = h ∧ ∃ tx bn, env.registerResult h = some (tx, bn)))
        db (finalize env db h).1
    ∧ ∀ file, List.Forall₂ (fun r r' => r'.verified = r.verified)
        db (uploadVerify env db file).db := by
  have hsim : env.ledgerInit = false → (finalize env db h).1 = db := by
    intro hi
    simp only [finalize, hi, Bool.not_false, if_true]
    cases hf : dbFindByDocumentHash db h with
    | none => rfl
    | some doc =>
        simp only []
        split
        · rfl
        · rfl
  refine ⟨hsim, ?_, ?_, ?_⟩
  · intro hr
    cases hi : env.ledgerInit with
    | false => exact hsim hi
    | true =>
        simp only [finalize, hi, Bool.not_true, Bool.false_eq_true, if_false]
        cases hf : dbFindByDocumentHash db h with
        | none => rfl
        | some doc =>
            simp only []
            split
            · rfl
            · rw [hr]
  · cases hi : env.ledgerInit with
    | false =>
        rw [hsim hi]
        exact (List.forall₂_same).mpr fun r _ hv => Or.inl hv
    | true =>
        simp only [finalize, hi, Bool.not_true, Bool.false_eq_true, if_false]
        cases hf : dbFindByDocumentHash db h with
        | none => exact (List.forall₂_same).mpr fun r _ hv => Or.inl hv
        | some doc =>
            simp only []
            split
            · exact (List.forall₂_same).mpr fun r _ hv => Or.inl hv
            · cases hr : env.registerResult h with
              | none => exact (List.forall₂_same).mpr fun r _ hv => Or.inl hv
              | some p =>
                  cases hw : env.watermarkCreate doc.processed_file_path h with
                  | some wp =>
                      unfold dbSetFinalized
                      refine (List.forall₂_map_right_iff).mpr ?_
                      refine (List.forall₂_same).mpr fun r _ => ?_
                      by_cases hx : (r.document_hash == h) = true
                      · simp only [hx, if_true]
                        intro _
                        exact Or.inr ⟨beq_iff_eq.mp hx, p.1, p.2, by simp [hr]⟩
                      · simp only [Bool.not_eq_true] at hx
                        simp only [hx, Bool.false_eq_true, if_false]
                        exact fun hv => Or.inl hv
                  | none =>
                      unfold dbSetFinalized
                      refine (List.forall₂_map_right_iff).mpr ?_
                      refine (List.forall₂_same).mpr fun r _ => ?_
                      by_cases hx : (r.document_hash == h) = true
                      · simp only [hx, if_true]
                        intro _
                        exact Or.inr ⟨beq_iff_eq.mp hx, p.1, p.2, by simp [hr]⟩
                      · simp only [Bool.not_eq_true] at hx
                        simp only [hx, Bool.false_eq_true, if_false]
                        exact fun hv => Or.inl hv
  · intro file
    cases hres : resolveDocument env db file with
    | none =>
        simp only [uploadVerify, hres]
        exact (List.forall₂_same).mpr fun r _ => rfl
    | some doc =>
        cases hc : ledgerConfirmed env doc.document_hash with
        | false =>
            simp only [uploadVerify, hres, hc, Bool.false_eq_true, if_false]
            exact (List.forall₂_same).mpr fun r _ => rfl
        | true =>
            simp only [uploadVerify, hres, hc, if_true, updateDocumentHashes]
            refine (List.forall₂_map_right_iff).mpr ?_
            refine (List.forall₂_same).mpr fun r _ => ?_
            by_cases hx : (r.document_hash == doc.document_hash) = true
            · simp only [hx, if_true]
              simp [applyBackfillUpdate]
            · simp only [Bool.not_eq_true] at hx
              simp only [hx, Bool.false_eq_true, if_false]

theorem verifiedFlagLedgerOnlyWitness :
    ((finalize env5 [rec5] "0xd5").1 = [rec5]
      ∧ (finalize env5 [rec5] "0xd5").2 = FinalizeOutcome.errSimulatedReference)
    ∧ (finalize env5b [rec5] "0xd5").1 = [rec5] :=
  ⟨⟨(verifiedFlagLedgerOnly env5 [rec5] "0xd5").1 rfl, by decide⟩,
   (verifiedFlagLedgerOnly env5b [rec5] "0xd5").2.1 rfl⟩

/-! ## Claim C3: the tamper classifier -/

/-- Fixture environment for the C3 counterexample: the uploaded PDF
parses with 3 pages, the stored processed file with 2 pages, equal
sizes. -/
def env3 : Env :=
  { envBase with
    fsRead := fun p => if p = "pf3" then some [0] else none,
    parsePdf := fun bs =>
      if bs = [9] then some { subject := none, keywords := none, pageCount := 3 }
      else some { subject := none, keywords := none, pageCount := 2 } }

/-- Fixture row for the C3 counterexample: only the processed variant
exists, so the comparison target is not the watermarked one. -/
def rec3 : DocRecord :=
  { recBase with
    processed_content_hash := some "0xp3", processed_file_path := some "pf3" }

/-- C3 counterexample: a PDF upload whose page count (3) differs from
the expected comparison file's page count (2) is classified
`MINOR_MODIFICATION` with confidence 70, not `PAGE_MODIFICATION` with
confidence 100 — the code compares page counts only against the
watermarked variant, and here the comparison target is the processed
one. -/
theorem tamperPageCheckCounterexample :
    ((env3.parsePdf [9]).map PdfMeta.pageCount = some 3)
    ∧ (((readPath env3 rec3.processed_file_path).bind env3.parsePdf).map PdfMeta.pageCount
        = some 2)
    ∧ (detectTamperingWithWatermarkAwareness env3 [9] "0xu3" rec3
        "application/pdf" false).tamperType = some "MINOR_MODIFICATION"
    ∧ (detectTamperingWithWatermarkAwareness env3 [9] "0xu3" rec3
        "application/pdf" false).confidence = some 70 := by decide

/-- C3 amended: the classifier always returns `authentic = false`,
`tampered = true`, and classifies as follows.  For PDF uploads: an
unparseable upload is `STRUCTURE_CORRUPTION` 100; the page-count check
runs only when the selected comparison variant is the watermarked one
and its file reads and parses — a nonzero expected page count differing
from the uploaded one then gives `PAGE_MODIFICATION` 100; else a
self-reported watermarked upload whose selected comparison variant is
not the watermarked one gives `WATERMARK_MISMATCH` 85; else a
non-self-reporting upload compared against the watermarked variant
gives `WATERMARK_REMOVAL` 95; else `sizeRatio < 0.01` gives
`MINOR_MODIFICATION` 70, otherwise `CONTENT_MODIFICATION` 95.  For
non-PDF uploads: `sizeDifference = 0` gives `CONTENT_REPLACEMENT` 100,
else `sizeRatio < 0.05` gives `MINOR_MODIFICATION` 85, else
`MAJOR_MODIFICATION` 100; `sizeRatio` is `|uploadedSize -
expectedSize| / expectedSize`, taken as 1 when the expected size is 0,
the expected file is unreadable, or no comparison variant exists (in
which case `sizeDifference` is undefined, never 0). -/
theorem tamperClassifierAmended (env : Env) (bytes : List Nat) (uh : String)
    (doc : DocRecord) (mime : String) (isW : Bool) :
    ((detectTamperingWithWatermarkAwareness env bytes uh doc mime isW).authentic = false
      ∧ (detectTamperingWithWatermarkAwareness env bytes uh doc mime isW).tampered = true)
    ∧ (mime = "application/pdf" → env.parsePdf bytes = none →
        (detectTamperingWithWatermarkAwareness env bytes uh doc mime isW).tamperType
          = some "STRUCTURE_CORRUPTION"
        ∧ (detectTamperingWithWatermarkAwareness env bytes uh doc mime isW).confidence
          = some 100)
    ∧ (∀ up n, mime = "application/pdf" → env.parsePdf bytes = some up →
        expectedPageCountOf env doc (selectExpected env doc).2.2 = some n →
        n ≠ 0 → up.pageCount ≠ n →
        (detectTamperingWithWatermarkAwareness env bytes uh doc mime isW).tamperType
          = some "PAGE_MODIFICATION"
        ∧ (detectTamperingWithWatermarkAwareness env bytes uh doc mime isW).confidence
          = some 100)
    ∧ (∀ up, mime = "application/pdf" → env.parsePdf bytes = some up →
        (∀ n, expectedPageCountOf env doc (selectExpected env doc).2.2 = some n →
          n = 0 ∨ up.pageCount = n) →
        isW = true → (selectExpected env doc).2.2 ≠ some "watermarked" →
        (detectTamperingWithWatermarkAwareness env bytes uh doc mime isW).tamperType
          = some "WATERMARK_MISMATCH"
        ∧ (detectTamperingWithWatermarkAwareness env bytes uh doc mime isW).confidence
          = some 85)
    ∧ (∀ up, mime = "application/pdf" → env.parsePdf bytes = some up →
        (∀ n, expectedPageCountOf env doc (selectExpected env doc).2.2 = some n →
          n = 0 ∨ up.pageCount = n) →
        isW = false → (selectExpected env doc).2.2 = some "watermarked" →
        (detectTamperingWithWatermarkAwareness env bytes uh doc mime isW).tamperType
          = some "WATERMARK_REMOVAL"
        ∧ (detectTamperingWithWatermarkAwareness env bytes uh doc mime isW).confidence
          = some 95)
    ∧ (∀ up, mime = "application/pdf" → env.parsePdf bytes = some up →
        (∀ n, expectedPageCountOf env doc (selectExpected env doc).2.2 = some n →
          n = 0 ∨ up.pageCount = n) →
        (isW = true ↔ (selectExpected env doc).2.2 = some "watermarked") →
        sizeRatioOf bytes.length (selectExpected env doc).2.1 < mkRat 1 100 →
        (detectTamperingWithWatermarkAwareness env bytes uh doc mime isW).tamperType
          = some "MINOR_MODIFICATION"
        ∧ (detectTamperingWithWatermarkAwareness env bytes uh doc mime isW).confidence
          = some 70)
    ∧ (∀ up, mime = "application/pdf" → env.parsePdf bytes = some up →
        (∀ n, expectedPageCountOf env doc (selectExpected env doc).2.2 = some n →
          n = 0 ∨ up.pageCount = n) →
        (isW = true ↔ (selectExpected env doc).2.2 = some "watermarked") →
        ¬(sizeRatioOf bytes.length (selectExpected env doc).2.1 < mkRat 1 100) →
        (detectTamperingWithWatermarkAwareness env bytes uh doc mime isW).tamperType
          = some "CONTENT_MODIFICATION"
        ∧ (detectTamperingWithWatermarkAwareness env bytes uh doc mime isW).confidence
          = some 95)
    ∧ (mime ≠ "application/pdf" →
        sizeDiffOf bytes.length (selectExpected env doc).2.1 = some 0 →
        (detectTamperingWithWatermarkAwareness env bytes uh doc mime isW).tamperType
          = some "CONTENT_REPLACEMENT"
        ∧ (detectTamperingWithWatermarkAwareness env bytes uh doc mime isW).confidence
          = some 100)
    ∧ (mime ≠ "application/pdf" →
        sizeDiffOf bytes.length (selectExpected env doc).2.1 ≠ some 0 →
        sizeRatioOf bytes.length (selectExpected env doc).2.1 < mkRat 1 20 →
        (detectTamperingWithWatermarkAwareness env bytes uh doc mime isW).tamperType
          = some "MINOR_MODIFICATION"
        ∧ (detectTamperingWithWatermarkAwareness env bytes uh doc mime isW).confidence
          = some 85)
    ∧ (mime ≠ "application/pdf" →
        sizeDiffOf bytes.length (selectExpected env doc).2.1 ≠ some 0 →
        ¬(sizeRatioOf bytes.length (selectExpected env doc).2.1 < mkRat 1 20) →
        (detectTamperingWithWatermarkAwareness env bytes uh doc mime isW).tamperType
          = some "MAJOR_MODIFICATION"
        ∧ (detectTamperingWithWatermarkAwareness env bytes uh doc mime isW).confidence
          = some 100) := by
  refine ⟨?_, ?_, ?_, ?_, ?_, ?_, ?_, ?_, ?_, ?_⟩
  · exact ⟨rfl, rfl⟩
  · intro hm hp
    simp [detectTamperingWithWatermarkAwareness, hm, hp]
  · intro up n hm hp hpc hn0 hne
    have hcond : (match expectedPageCountOf env doc (selectExpected env doc).2.2 with
        | some n => (n != 0) && (up.pageCount != n)
        | none => false) = true := by
      rw [hpc]
      simp [hn0, hne]
    simp [detectTamperingWithWatermarkAwareness, hm, hp, hcond]
  · intro up hm hp hpcall hw hvne
    have hcond : (match expectedPageCountOf env doc (selectExpected env doc).2.2 with
        | some n => (n != 0) && (up.pageCount != n)
        | none => false) = false := by
      cases hx : expectedPageCountOf env doc (selectExpected env doc).2.2 with
      | none => rfl
      | some n =>
          rcases hpcall n hx with h0 | h0 <;> simp [h0]
    have hbeq : ((selectExpected env doc).2.2 == some "watermarked") = false := by
      simp [hvne]
    simp [detectTamperingWithWatermarkAwareness, hm, hp, hcond, hw, hbeq]
  · intro up hm hp hpcall hw hveq
    have hcond : (match expectedPageCountOf env doc (selectExpected env doc).2.2 with
        | some n => (n != 0) && (up.pageCount != n)
        | none => false) = false := by
      cases hx : expectedPageCountOf env doc (selectExpected env doc).2.2 with
      | none => rfl
      | some n =>
          rcases hpcall n hx with h0 | h0 <;> simp [h0]
    rw [hveq] at hcond
    simp [detectTamperingWithWatermarkAwareness, hm, hp, hcond, hw, hveq]
  · intro up hm hp hpcall hiff hr
    have hcond : (match expectedPageCountOf env doc (selectExpected env doc).2.2 with
        | some n => (n != 0) && (up.pageCount != n)
        | none => false) = false := by
      cases hx : expectedPageCountOf env doc (selectExpected env doc).2.2 with
      | none => rfl
      | some n =>
          rcases hpcall n hx with h0 | h0 <;> simp [h0]
    cases hw : isW with
    | true =>
        have hveq := hiff.mp hw
        rw [hveq] at hcond
        simp [detectTamperingWithWatermarkAwareness, hm, hp, hcond, hw, hveq, hr]
    | false =>
        have hvne : (selectExpected env doc).2.2 ≠ some "watermarked" := by
          intro hv
          rw [hiff.mpr hv] at hw
          exact absurd hw (by simp)
        have hbeq : ((selectExpected env doc).2.2 == some "watermarked") = false := by
          simp [hvne]
        simp [detectTamperingWithWatermarkAwareness, hm, hp, hcond, hw, hbeq, hr]
  · intro up hm hp hpcall hiff hr
    have hcond : (match expectedPageCountOf env doc (selectExpected env doc).2.2 with
        | some n => (n != 0) && (up.pageCount != n)
        | none => false) = false := by
      cases hx : expectedPageCountOf env doc (selectExpected env doc).2.2 with
      | none => rfl
      | some n =>
          rcases hpcall n hx with h0 | h0 <;> simp [h0]
    cases hw : isW with
    | true =>
        have hveq := hiff.mp hw
        rw [hveq] at hcond
        simp [detectTamperingWithWatermarkAwareness, hm, hp, hcond, hw, hveq, hr]
    | false =>
        have hvne : (selectExpected env doc).2.2 ≠ some "watermarked" := by
          intro hv
          rw [hiff.mpr hv] at hw
          exact absurd hw (by simp)
        have hbeq : ((selectExpected env doc).2.2 == some "watermarked") = false := by
          simp [hvne]
        simp [detectTamperingWithWatermarkAwareness, hm, hp, hcond, hw, hbeq, hr]
  · intro hm hd
    have hbeq : (sizeDiffOf bytes.length (selectExpected env doc).2.1 == some 0) = true := by
      simp [hd]
    simp [detectTamperingWithWatermarkAwareness, hm, hbeq]
  · intro hm hd hr
    have hbeq : (sizeDiffOf bytes.length (selectExpected env doc).2.1 == some 0) = false := by
      simp [hd]
    simp [detectTamperingWithWatermarkAwareness, hm, hbeq, hr]
  · intro hm hd hr
    have hbeq : (sizeDiffOf bytes.length (selectExpected env doc).2.1 == some 0) = false := by
      simp [hd]
    simp [detectTamperingWithWatermarkAwareness, hm, hbeq, hr]

/-- Fixture row for the C3 amended witness: only the original variant's
hash exists and its file is unreadable, so the expected size is 0 and an
empty non-PDF upload has `sizeDifference = 0`. -/
def rec3w : DocRecord := { recBase with content_hash := some "0xc3w" }

theorem tamperClassifierAmendedWitness :
    (detectTamperingWithWatermarkAwareness envBase [] "0xu3w" rec3w
      "text/plain" false).tamperType = some "CONTENT_REPLACEMENT"
    ∧ (detectTamperingWithWatermarkAwareness envBase [] "0xu3w" rec3w
      "text/plain" false).confidence = some 100 :=
  (tamperClassifierAmended envBase [] "0xu3w" rec3w "text/plain" false).2.2.2.2.2.2.2.1
    (by decide) (by decide)

end DocVerify
